import Mathlib

/-!
Verification of the ResumeGen layout engine (src/app.py).

The program converts a resume JSON document into a paginated PDF via a
greedy word-wrapping text layout engine and a fixed-order document
composer.  This file gives a shallow embedding of the layout code and
proves / refutes the specification claims about it.

Conventions of the embedding:

* All lengths and coordinates are integers in units of 1/1270 of a PDF
  point.  The source works with Python floats whose constants are all
  decimal multiples of 0.1 pt or of reportlab's `cm = 72/2.54` pt, so
  scaling by 1270 = 2.54 * 500 makes every constant in the source an
  exact integer (`cm` becomes 72 * 500 = 36000) and the scaling
  preserves every comparison the source performs.
* reportlab's `stringWidth(text, font, size)` (the external
  text-measurement collaborator) is, for the Type-1 fonts used here, the
  sum over the characters of the glyph width of each character at the
  given size.  We model it as a parameter `FontMetrics` giving the
  per-character width (already at the given size, in our units), and
  `stringWidth` sums it over the characters of the string.
* Python's `str.split()` (split on whitespace runs, dropping empty
  pieces) is modelled by `pySplit`; Python's `str.upper()` on the ASCII
  title strings used by the program is modelled by `upperAscii`.
* The reportlab canvas is modelled by a record `RS` that accumulates the
  drawing primitives (`ops`), the current page number, the vertical
  cursor `y`, and the history `cur` of every value assigned to the
  threaded cursor variable together with the page it was assigned on.
-/

/-! ## Python string primitives -/

/-- ASCII upper-casing of one character (model of `str.upper()` on the
ASCII strings this program passes to it). -/
def upChar (c : Char) : Char :=
  if 'a' ≤ c ∧ c ≤ 'z' then Char.ofNat (c.toNat - 32) else c

/-- Model of Python `str.upper()` for the ASCII strings used by the program. -/
def upperAscii (s : String) : String := ⟨s.data.map upChar⟩

/-- Worker for `pySplit`: walks the characters, accumulating the current
word in `cur`; whitespace closes the current word (if nonempty). -/
def wordsAux (cur : String) : List Char → List String
  | [] => if cur = "" then [] else [cur]
  | c :: cs =>
    if c.isWhitespace then
      if cur = "" then wordsAux "" cs else cur :: wordsAux "" cs
    else wordsAux (cur.push c) cs

/-- Model of Python `str.split()` with no arguments: split on runs of
whitespace, dropping empty pieces. -/
def pySplit (s : String) : List String := wordsAux "" s.data

/-- Joining a list of lines with single spaces (the concatenation used
to state the round-trip property of wrapping). -/
def joinSpace : List String → String
  | [] => ""
  | [l] => l
  | l :: ls => l ++ " " ++ joinSpace ls

/-- A word as produced by `str.split()`: nonempty and whitespace-free. -/
def goodWord (w : String) : Prop :=
  w ≠ "" ∧ ∀ c ∈ w.data, c.isWhitespace = false

/-! ## Geometry constants (units of 1/1270 pt) -/

/-- One PDF point in coordinate units. -/
def PT : ℤ := 1270

/-- reportlab's `cm` = 72/2.54 pt; exactly 36000 units. -/
def cm : ℤ := 36000

/-- A4 width, 210 mm = 21 cm. -/
def PAGE_W : ℤ := 21 * cm

/-- A4 height, 297 mm = 29.7 cm; 29.7 * 36000 = 1069200 units. -/
def PAGE_H : ℤ := 1069200

/-- `MIN_LINE_GAP = 0.8` pt (src/app.py line 11); 0.8 * 1270 = 1016 units. -/
def MIN_LINE_GAP : ℤ := 1016

/-! ## Text measurement -/

/-- External font-metrics collaborator: font name, font size (in units),
character ↦ advance width of that character at that size (in units). -/
def FontMetrics : Type := String → ℤ → Char → ℤ

/-- Model of reportlab `stringWidth`: sum of per-character widths. -/
def stringWidth (m : FontMetrics) (font : String) (size : ℤ) (s : String) : ℤ :=
  (s.data.map (m font size)).sum

/-! ## wrap_lines (src/app.py lines 13-31) -/

/-- The greedy accumulation loop of `wrap_lines`, one step per word.
`line` is the current line being grown, the returned list is the lines
emitted from here on (the source appends to a `lines` accumulator and
finally appends the trailing `line` if nonempty; this recursion emits
the same lines in the same order).  The source computes the candidate as
`(line + " " + w).strip()`; since the words come from `str.split()` they
are whitespace-free, so that equals `w` when `line` is empty and
`line + " " + w` otherwise, which is how it is written here. -/
def wrapAux (m : FontMetrics) (font : String) (size max_width : ℤ) :
    List String → String → List String
  | [], line => if line = "" then [] else [line]
  | w :: ws, line =>
    let test := if line = "" then w else line ++ " " ++ w
    if stringWidth m font size test ≤ max_width then
      wrapAux m font size max_width ws test
    else if line = "" then
      wrapAux m font size max_width ws w
    else
      line :: wrapAux m font size max_width ws w

/-- `wrap_lines(text, max_width, font, size)`: split the text into words
and greedily pack them into lines of measured width at most `max_width`
(src/app.py lines 13-31).  The source's early return `if not words:
return []` coincides with `wrapAux [] "" = []`. -/
def wrap_lines (m : FontMetrics) (text : String) (max_width : ℤ)
    (font : String) (size : ℤ) : List String :=
  wrapAux m font size max_width (pySplit text) ""

/-! ## draw_boxed_block height and the education card padding -/

/-- Box height computed by `draw_boxed_block` (src/app.py line 46):
`padding * 2 + len(text_lines) * leading + max(0, len(text_lines) - 1) * line_gap`. -/
def box_height_calc (padding leading line_gap : ℤ) (n : ℕ) : ℤ :=
  padding * 2 + (n : ℤ) * leading + max 0 ((n : ℤ) - 1) * line_gap

/-- Modelled from the spec's words (§4.5): box height as
`2×padding + lines×leading + (lines−1)×intra-line gap`, with the literal
(possibly negative) `lines − 1` factor.  Used only to compare the spec's
formula with the source's `box_height_calc`. -/
def boxHeightSpec (padding leading line_gap : ℤ) (n : ℕ) : ℤ :=
  2 * padding + (n : ℤ) * leading + ((n : ℤ) - 1) * line_gap

/-- Equal-length padding of the two card line blocks of an education row
(src/app.py lines 284-288): both blocks are padded with empty lines up
to the maximum of the two lengths. -/
def padCardLines (left_lines right_lines : List String) : List String × List String :=
  let max_lines := max left_lines.length right_lines.length
  (if left_lines.length < max_lines then
      left_lines ++ List.replicate (max_lines - left_lines.length) ""
    else left_lines,
   if right_lines.length < max_lines then
      right_lines ++ List.replicate (max_lines - right_lines.length) ""
    else right_lines)

/-! ## Drawing primitives and canvas state -/

/-- A drawing primitive recorded with the page it is drawn on. -/
inductive Op where
  | text (page : ℕ) (x y : ℤ) (s : String)
  | line (page : ℕ) (x1 y1 x2 y2 : ℤ)
  | rect (page : ℕ) (x y w h : ℤ)
deriving DecidableEq

/-- Render state: current page, threaded vertical cursor `y`, the
accumulated drawing primitives, and the history of every value assigned
to the cursor variable (with the page current at that assignment). -/
structure RS where
  page : ℕ
  y : ℤ
  ops : List Op
  cur : List (ℕ × ℤ)
deriving DecidableEq

def emitText (s : RS) (x ypos : ℤ) (t : String) : RS :=
  { s with ops := s.ops ++ [Op.text s.page x ypos t] }

def emitLine (s : RS) (x1 y1 x2 y2 : ℤ) : RS :=
  { s with ops := s.ops ++ [Op.line s.page x1 y1 x2 y2] }

def emitRect (s : RS) (x ypos w h : ℤ) : RS :=
  { s with ops := s.ops ++ [Op.rect s.page x ypos w h] }

/-- Assignment to the threaded cursor variable. -/
def setY (s : RS) (q : ℤ) : RS :=
  { s with y := q, cur := s.cur ++ [(s.page, q)] }

/-- Model of `c.showPage()`. -/
def newPage (s : RS) : RS :=
  { s with page := s.page + 1 }

/-! ## Layout functions (src/app.py lines 34-139) -/

/-- `draw_wrapped_text` (src/app.py lines 63-92): wraps the text (the
source inlines the identical greedy loop of `wrap_lines`), draws each
line at the cursor decrementing by `leading` per line, then subtracts
the blanket minimum paragraph gap. -/
def draw_wrapped_text (m : FontMetrics) (s : RS) (text : String) (x max_width : ℤ)
    (font : String) (size leading min_gap : ℤ) : RS :=
  let lines := wrap_lines m text max_width font size
  let s := lines.foldl (fun st ln => setY (emitText st x st.y ln) (st.y - leading)) s
  setY s (s.y - min_gap)

/-- `draw_section_title` (src/app.py lines 95-98): draws the upper-cased
title at `(x, ypos)` and returns `ypos - (14 + MIN_LINE_GAP)`. -/
def draw_section_title (s : RS) (title : String) (x ypos : ℤ) : RS :=
  setY (emitText s x ypos (upperAscii title)) (ypos - (14 * PT + MIN_LINE_GAP))

/-- `draw_bullets` (src/app.py lines 101-119): for each bullet draw the
marker, the wrapped text indented by `bullet_indent`, then an extra
`MIN_LINE_GAP`. -/
def draw_bullets (m : FontMetrics) (s : RS) (bullets : List String) (x max_width : ℤ)
    (font : String) (size leading bullet_indent : ℤ) : RS :=
  bullets.foldl (fun st b =>
    let st := emitText st x st.y "•"
    let st := draw_wrapped_text m st b (x + bullet_indent) (max_width - bullet_indent)
      font size leading MIN_LINE_GAP
    setY st (st.y - MIN_LINE_GAP)) s

/-- `draw_divider` (src/app.py lines 121-124). -/
def draw_divider (s : RS) (x_start x_end ypos : ℤ) : RS :=
  setY (emitLine s x_start ypos x_end ypos) (ypos - 8 * PT)

/-- `draw_page_border` (src/app.py lines 126-139): margin = 0.2 cm =
7200 units, width `page_w - 1.85 * margin` (1.85 * 7200 = 13320),
height `page_h - 2 * margin`. -/
def draw_page_border (s : RS) : RS :=
  emitRect s 7200 7200 (PAGE_W - 13320) (PAGE_H - 2 * 7200)

/-- `draw_boxed_block` (src/app.py lines 34-60): computes the box
height, draws the rectangle anchored with top-left `(x, ypos)`, draws
each line at `x + padding` starting at `ypos - padding - size` stepping
by `leading + line_gap`, and returns the height (the cursor `y` is not
advanced; the source returns the original `y` together with the
height).  The source's `text_lines = [str(ln) for ln in lines]` is the
identity on the string lists the program passes. -/
def draw_boxed_block (s : RS) (x ypos width : ℤ) (lines : List String)
    (padding : ℤ) (font : String) (size leading line_gap : ℤ) : RS × ℤ :=
  let box_height := box_height_calc padding leading line_gap lines.length
  let s := emitRect s x (ypos - box_height) width box_height
  let res := lines.foldl
    (fun (p : RS × ℤ) ln => (emitText p.1 (x + padding) p.2 ln, p.2 - (leading + line_gap)))
    (s, ypos - padding - size)
  (res.1, box_height)

/-! ## The document data model (§3 of the spec) -/

structure SkillItem where
  label : Option String
  value : Option String
deriving DecidableEq

structure ExpItem where
  company : Option String
  role_line : Option String
  bullets : Option (List String)
deriving DecidableEq

structure EduItem where
  degree : Option String
  details : Option String
deriving DecidableEq

/-- The parsed resume document; `none` models an absent JSON key
(each use site applies the source's `.get` default). -/
structure ResumeData where
  name : Option String
  contact : Option String
  career_objective : Option String
  skills_snapshot : Option (List SkillItem)
  experience : Option (List ExpItem)
  education : Option (List EduItem)
  certifications : Option (List String)
  references : Option (List String)
deriving DecidableEq

/-! ## Composer layout constants (src/app.py lines 150-157, 190-194, 241-250) -/

def leftMargin : ℤ := 18000        -- 0.5 cm
def rightMargin : ℤ := 18000       -- 0.5 cm
def topMargin : ℤ := 27000         -- 0.75 cm
def bottomMargin : ℤ := 0          -- 0 cm
def content_w : ℤ := PAGE_W - leftMargin - rightMargin
def pageTop : ℤ := PAGE_H - topMargin

def label_w : ℤ := 151200          -- 4.2 cm
def skills_gap : ℤ := 21600        -- 0.6 cm
def value_x : ℤ := leftMargin + label_w + skills_gap
def value_w : ℤ := content_w - label_w - skills_gap

def col_gap : ℤ := 21600           -- 0.6 cm
def col_w : ℤ := (content_w - col_gap) / 2   -- exact: (720000 - 21600) / 2 = 349200
def edu_x2 : ℤ := leftMargin + col_w + col_gap
def card_padding : ℤ := 6 * PT
def edu_size : ℤ := 10795          -- 8.5 pt
def edu_leading : ℤ := 11 * PT

/-! ## The document composer (create_resume_pdf, src/app.py lines 142-337) -/

/-- `new_page_if_needed` (src/app.py lines 160-164); the caller always
assigns the returned value to `y`, so the no-break branch re-records the
unchanged cursor value. -/
def new_page_if_needed (s : RS) : RS :=
  if s.y < bottomMargin + 2 * cm then setY (newPage s) pageTop else setY s s.y

/-- Header block (src/app.py lines 166-173). -/
def headerPart (d : ResumeData) (s : RS) : RS :=
  let s := emitText s leftMargin s.y (d.name.getD "YOUR NAME")
  let s := setY s (s.y - 15 * PT)
  let s := emitText s leftMargin s.y (d.contact.getD "Location | Phone | Email")
  setY s (s.y - 8 * PT)

/-- Career objective section (src/app.py lines 175-184). -/
def objectivePart (m : FontMetrics) (d : ResumeData) (s : RS) : RS :=
  let s := draw_divider s leftMargin (leftMargin + content_w) s.y
  let s := setY s (s.y - 3 * PT)
  let s := new_page_if_needed s
  let s := draw_section_title s "CAREER OBJECTIVE" leftMargin s.y
  let s := draw_wrapped_text m s (d.career_objective.getD "") leftMargin content_w
    "Helvetica" (10 * PT) (12 * PT) MIN_LINE_GAP
  setY s (s.y - 10 * PT)

/-- One row of the skills table (src/app.py lines 196-206). -/
def skillRow (m : FontMetrics) (s : RS) (item : SkillItem) : RS :=
  let s := new_page_if_needed s
  let s := emitText s leftMargin s.y (item.label.getD "")
  let s := draw_wrapped_text m s (item.value.getD "") value_x value_w
    "Helvetica" (10 * PT) (12 * PT) MIN_LINE_GAP
  setY s (s.y - 2 * PT)

/-- Skills snapshot section (src/app.py lines 186-208). -/
def skillsPart (m : FontMetrics) (d : ResumeData) (s : RS) : RS :=
  let s := new_page_if_needed s
  let s := draw_section_title s "SKILLS SNAPSHOT" leftMargin s.y
  let s := (d.skills_snapshot.getD []).foldl (skillRow m) s
  setY s (s.y - 10 * PT)

/-- `exp_block` (src/app.py lines 214-227). -/
def exp_block (m : FontMetrics) (s : RS) (company role_line : String)
    (bullets : List String) : RS :=
  let s := new_page_if_needed s
  let s := emitText s leftMargin s.y company
  let s := setY s (s.y - 13 * PT)
  let s := draw_wrapped_text m s role_line leftMargin content_w
    "Helvetica-Bold" (10 * PT) (12 * PT) MIN_LINE_GAP
  let s := setY s (s.y - 2 * PT)
  let s := draw_bullets m s bullets leftMargin content_w
    "Helvetica" (10 * PT) (12 * PT) (10 * PT)
  setY s (s.y - 6 * PT)

/-- Experience section (src/app.py lines 210-235). -/
def expPart (m : FontMetrics) (d : ResumeData) (s : RS) : RS :=
  let s := new_page_if_needed s
  let s := draw_section_title s "EXPERIENCE" leftMargin s.y
  (d.experience.getD []).foldl
    (fun st e => exp_block m st (e.company.getD "") (e.role_line.getD "")
      (e.bullets.getD [])) s

/-- The wrapped degree+details line block of one education card
(src/app.py lines 267-281). -/
def eduCardLines (m : FontMetrics) (it : EduItem) : List String :=
  wrap_lines m (it.degree.getD "") (col_w - 2 * card_padding) "Helvetica" edu_size
    ++ wrap_lines m (it.details.getD "") (col_w - 2 * card_padding) "Helvetica" edu_size

/-- One full row of the education grid with both cards present
(src/app.py lines 256-306): rough page-break check, build and pad the
two card line blocks, draw both cards at the same `y`, advance the
cursor by the row height (max of the two card heights) plus a 10 pt
gap. -/
def eduRowPair (m : FontMetrics) (s : RS) (itl itr : EduItem) : RS :=
  let s := if s.y < bottomMargin + 4 * cm then setY (newPage s) pageTop else s
  let pads := padCardLines (eduCardLines m itl) (eduCardLines m itr)
  let rl := draw_boxed_block s leftMargin s.y col_w pads.1
    card_padding "Helvetica" edu_size edu_leading 0
  let rr := draw_boxed_block rl.1 edu_x2 s.y col_w pads.2
    card_padding "Helvetica" edu_size edu_leading 0
  let row_height := max rl.2 rr.2
  setY rr.1 (rr.1.y - row_height - 10 * PT)

/-- A final odd education entry rendered alone in the left column
(src/app.py lines 256-306 with `right_item = None`: `max_lines` is the
left block's length, so no padding happens, and the row height is the
left card's height). -/
def eduRowSingle (m : FontMetrics) (s : RS) (it : EduItem) : RS :=
  let s := if s.y < bottomMargin + 4 * cm then setY (newPage s) pageTop else s
  let r := draw_boxed_block s leftMargin s.y col_w (eduCardLines m it)
    card_padding "Helvetica" edu_size edu_leading 0
  setY r.1 (r.1.y - r.2 - 10 * PT)

/-- The education pair loop (src/app.py lines 255-308): rows of two
items at a time, a final odd item alone. -/
def eduLoop (m : FontMetrics) : RS → List EduItem → RS
  | s, [] => s
  | s, [it] => eduRowSingle m s it
  | s, itl :: itr :: rest => eduLoop m (eduRowPair m s itl itr) rest

/-- Education section (src/app.py lines 237-308): the section title is
followed by `y += 15` (line 239), and then the card grid. -/
def eduPart (m : FontMetrics) (d : ResumeData) (s : RS) : RS :=
  let s := draw_section_title s "EDUCATION" leftMargin s.y
  let s := setY s (s.y + 15 * PT)
  eduLoop m s (d.education.getD [])

/-- Certifications section (src/app.py lines 318-325), drawn only when
the list is nonempty. -/
def certsPart (m : FontMetrics) (d : ResumeData) (s : RS) : RS :=
  if d.certifications.getD [] = [] then s else
    let s := new_page_if_needed s
    let s := draw_section_title s "CERTIFICATIONS" leftMargin s.y
    let s := draw_bullets m s (d.certifications.getD []) leftMargin content_w
      "Helvetica" (10 * PT) (12 * PT) (10 * PT)
    let s := draw_divider s leftMargin (leftMargin + content_w) s.y
    setY s (s.y - 0)

/-- References section (src/app.py lines 326-334), drawn only when the
list is nonempty; the title is drawn at `y - 2`. -/
def refsPart (m : FontMetrics) (d : ResumeData) (s : RS) : RS :=
  if d.references.getD [] = [] then s else
    let s := new_page_if_needed s
    let s := draw_section_title s "REFERENCE" leftMargin (s.y - 2 * PT)
    (d.references.getD []).foldl (fun st r =>
      let st := new_page_if_needed st
      let st := draw_wrapped_text m st r leftMargin content_w
        "Helvetica" (8 * PT) (6 * PT) MIN_LINE_GAP
      setY st (st.y - 4 * PT)) s

/-- `create_resume_pdf` (src/app.py lines 142-337): page border once,
then the fixed section order with a single threaded cursor starting at
`PAGE_H - top`. -/
def create_resume_pdf (m : FontMetrics) (d : ResumeData) : RS :=
  let s : RS := { page := 1, y := pageTop, ops := [], cur := [(1, pageTop)] }
  let s := draw_page_border s
  let s := headerPart d s
  let s := objectivePart m d s
  let s := skillsPart m d s
  let s := expPart m d s
  let s := eduPart m d s
  let s := certsPart m d s
  refsPart m d s

/-! ## Observations on the render result -/

/-- The strings of the text-drawing primitives, in drawing order. -/
def opTexts (l : List Op) : List String :=
  l.filterMap fun o => match o with
    | Op.text _ _ _ t => some t
    | _ => none

/-- Number of rectangle primitives. -/
def rectCount (l : List Op) : ℕ :=
  (l.filter fun o => match o with
    | Op.rect _ _ _ _ _ => true
    | _ => false).length

/-- Number of line primitives. -/
def lineCount (l : List Op) : ℕ :=
  (l.filter fun o => match o with
    | Op.line _ _ _ _ _ => true
    | _ => false).length

/-! ## Adjacent-pair predicates on the cursor history -/

/-- `StepsOk R l` holds when every adjacent pair of `l` satisfies `R`. -/
def StepsOk (R : α → α → Prop) : List α → Prop
  | [] => True
  | [_] => True
  | a :: b :: rest => R a b ∧ StepsOk R (b :: rest)

def stepsOkDec (R : α → α → Prop) (dR : DecidableRel R) :
    (l : List α) → Decidable (StepsOk R l)
  | [] => .isTrue trivial
  | [_] => .isTrue trivial
  | a :: b :: rest =>
    have : Decidable (StepsOk R (b :: rest)) := stepsOkDec R dR (b :: rest)
    have : Decidable (R a b) := dR a b
    inferInstanceAs (Decidable (R a b ∧ StepsOk R (b :: rest)))

instance (R : α → α → Prop) [dR : DecidableRel R] (l : List α) :
    Decidable (StepsOk R l) := stepsOkDec R dR l

/-- The cursor-step relation as claim C2 states it: within a page the
cursor never increases; the only other step is a page break resetting to
the top margin on a fresh page. -/
def ClaimStepRel (a b : ℕ × ℤ) : Prop :=
  (b.1 = a.1 ∧ b.2 ≤ a.2) ∨ (b.1 = a.1 + 1 ∧ b.2 = pageTop)

instance : DecidableRel ClaimStepRel := fun a b =>
  inferInstanceAs (Decidable ((b.1 = a.1 ∧ b.2 ≤ a.2) ∨ (b.1 = a.1 + 1 ∧ b.2 = pageTop)))

/-- The cursor-step relation the code actually guarantees: within a page
the cursor never increases except for the single fixed `y += 15`
adjustment after the EDUCATION section title; a page break resets to the
top margin on a fresh page. -/
def StepOkRel (a b : ℕ × ℤ) : Prop :=
  (b.1 = a.1 ∧ (b.2 ≤ a.2 ∨ b.2 = a.2 + 15 * PT)) ∨ (b.1 = a.1 + 1 ∧ b.2 = pageTop)

instance : DecidableRel StepOkRel := fun a b =>
  inferInstanceAs
    (Decidable ((b.1 = a.1 ∧ (b.2 ≤ a.2 ∨ b.2 = a.2 + 15 * PT)) ∨
      (b.1 = a.1 + 1 ∧ b.2 = pageTop)))

/-- Cursor-history invariant threaded through the composer proofs: the
last recorded entry is the current page and cursor, and all adjacent
steps so far satisfy `StepOkRel`. -/
def Good (s : RS) : Prop :=
  s.cur.getLast? = some (s.page, s.y) ∧ StepsOk StepOkRel s.cur

/-! ## Concrete test fixtures -/

/-- Helvetica AFM advance widths (per mille of the font size) for the
characters exercised by the concrete documents below; other characters
get a placeholder width. -/
def helvAfm (c : Char) : ℤ :=
  if c = 'H' then 722 else if c = 'e' then 556 else if c = 'l' then 222
  else if c = 'o' then 556 else if c = 'w' then 722 else if c = 'r' then 333
  else if c = 'd' then 556 else if c = ' ' then 278 else if c = 'A' then 667
  else if c = 'b' then 556 else if c = '@' then 1015 else if c = 'x' then 500
  else if c = 'c' then 500 else if c = 'm' then 833 else if c = '.' then 278
  else 600

/-- Concrete font metrics modelling Helvetica: AFM width × size / 1000
(integer division; the sub-unit rounding is far below the widths and
thresholds compared here). -/
def mHelv : FontMetrics := fun _ size c => helvAfm c * size / 1000

/-- Unit font metrics (every character one unit wide), used for
concrete witnesses of the wrapping theorems. -/
def mUnit : FontMetrics := fun _ _ _ => 1

/-- The minimal input document of claim C1. -/
def minimalDoc : ResumeData :=
  { name := some "A", contact := some "b@x.com", career_objective := some "Hello world",
    skills_snapshot := none, experience := none, education := none,
    certifications := none, references := none }

/-! ## The Streamlit editor (src/app.py lines 348-391)

The Generate handler in the source (lines 368-383) contains an unclosed
parenthesis: the `create_resume_pdf(` call opened on line 377 is never
closed, so `st.success(...)` on line 381 sits inside its argument list
and the whole module is a Python syntax error — it cannot be imported or
run.  The definitions below therefore model the editor behavior the
spec describes (§6), kept faithful to the source text where it is
readable: parse the edited text, on success write the pretty-printed
JSON back and render to `"RachitS_Resume.pdf"` (line 379), while the
download button (lines 385-391) serves the distinct file
`OUTPUT_PDF = "Rachit_Sharma_Resume_Generated.pdf"` (line 354) with MIME
type `application/pdf`. -/

/-- The files the editor touches: the stored input JSON, and the two
distinct PDF paths appearing in the source (the one the Generate
handler writes, and the one the download button serves). -/
structure AppFiles where
  resume_json : String
  rachits_pdf : Option String
  generated_pdf : Option String
deriving DecidableEq

/-- Modelled from the spec (§6): one click of the Generate action, with
`parse` abstracting `json.loads` (`none` = parse error), `pretty`
abstracting `json.dumps(·, indent=2)` and `render` abstracting the PDF
pipeline.  Returns the resulting files, whether an error message was
surfaced, and whether a render was attempted. -/
def generateClick (parse : String → Option ResumeData) (pretty : ResumeData → String)
    (render : ResumeData → String) (fs : AppFiles) (edited : String) :
    AppFiles × Bool × Bool :=
  match parse edited with
  | none => (fs, true, false)
  | some d =>
    ({ fs with resume_json := pretty d, rachits_pdf := some (render d) }, false, true)

/-- The download button (src/app.py lines 385-391): serves
`Rachit_Sharma_Resume_Generated.pdf` with MIME type `application/pdf`
whenever that file exists. -/
def downloadButton (fs : AppFiles) : Option (String × String) :=
  fs.generated_pdf.map (fun bytes => (bytes, "application/pdf"))

/-! # Basic facts about the string primitives -/

theorem data_append (a b : String) : (a ++ b).data = a.data ++ b.data := rfl

theorem str_empty_iff (s : String) : s = "" ↔ s.data = [] := by
  cases s with
  | mk l =>
    constructor
    · intro h
      rw [h]
    · intro h
      rw [show l = [] from h]

theorem space_is_ws : (' ').isWhitespace = true := by decide

theorem wordsAux_nil (cur : String) :
    wordsAux cur [] = if cur = "" then [] else [cur] := rfl

theorem wordsAux_cons (cur : String) (c : Char) (cs : List Char) :
    wordsAux cur (c :: cs) =
      if c.isWhitespace then
        (if cur = "" then wordsAux "" cs else cur :: wordsAux "" cs)
      else wordsAux (cur.push c) cs := rfl

theorem wordsAux_good : ∀ (cs : List Char) (cur : String),
    (∀ c ∈ cur.data, c.isWhitespace = false) →
    ∀ w ∈ wordsAux cur cs, goodWord w
  | [], cur, hcur, w, hw => by
    rw [wordsAux_nil] at hw
    by_cases h : cur = ""
    · simp [h] at hw
    · rw [if_neg h] at hw
      rw [List.mem_singleton] at hw
      subst hw
      exact ⟨h, hcur⟩
  | c :: cs, cur, hcur, w, hw => by
    rw [wordsAux_cons] at hw
    by_cases hws : c.isWhitespace
    · rw [if_pos hws] at hw
      by_cases h : cur = ""
      · rw [if_pos h] at hw
        exact wordsAux_good cs "" (by simp) w hw
      · rw [if_neg h] at hw
        rcases List.mem_cons.1 hw with h1 | h1
        · subst h1
          exact ⟨h, hcur⟩
        · exact wordsAux_good cs "" (by simp) w h1
    · rw [if_neg hws] at hw
      refine wordsAux_good cs (cur.push c) ?_ w hw
      intro d hd
      rw [show (cur.push c).data = cur.data ++ [c] from rfl] at hd
      rcases List.mem_append.1 hd with h1 | h1
      · exact hcur d h1
      · rw [List.mem_singleton.1 h1]
        exact eq_false_of_ne_true hws

theorem wordsAux_append_ws : ∀ (a : List Char) (cur : String) (b : List Char),
    wordsAux cur (a ++ ' ' :: b) = wordsAux cur a ++ wordsAux "" b
  | [], cur, b => by
    rw [List.nil_append, wordsAux_cons, if_pos space_is_ws, wordsAux_nil]
    by_cases h : cur = "" <;> simp [h]
  | c :: a, cur, b => by
    rw [List.cons_append, wordsAux_cons, wordsAux_cons]
    by_cases hws : c.isWhitespace
    · rw [if_pos hws, if_pos hws]
      by_cases h : cur = ""
      · rw [if_pos h, if_pos h, wordsAux_append_ws a]
      · rw [if_neg h, if_neg h, wordsAux_append_ws a, List.cons_append]
    · rw [if_neg hws, if_neg hws, wordsAux_append_ws a]

theorem wordsAux_no_ws : ∀ (w : List Char) (cur : String),
    (∀ c ∈ w, c.isWhitespace = false) →
    wordsAux cur w = if cur.data ++ w = [] then [] else [String.mk (cur.data ++ w)]
  | [], cur, _ => by
    rw [wordsAux_nil, List.append_nil]
    by_cases h : cur = ""
    · rw [if_pos h, if_pos ((str_empty_iff cur).1 h)]
    · rw [if_neg h, if_neg (fun hh => h ((str_empty_iff cur).2 hh))]
  | c :: w, cur, hw => by
    rw [wordsAux_cons, if_neg (by simp [hw c (List.mem_cons_self c w)]),
      wordsAux_no_ws w (cur.push c) (fun d hd => hw d (List.mem_cons_of_mem c hd))]
    have hdata : (cur.push c).data ++ w = cur.data ++ c :: w := by
      rw [show (cur.push c).data = cur.data ++ [c] from rfl, List.append_assoc]
      rfl
    rw [hdata]

theorem pySplit_good (s : String) : ∀ w ∈ pySplit s, goodWord w :=
  wordsAux_good s.data "" (by simp)

theorem pySplit_of_goodWord (w : String) (hw : goodWord w) : pySplit w = [w] := by
  unfold pySplit
  rw [wordsAux_no_ws w.data "" (fun c hc => hw.2 c hc)]
  rw [show ("" : String).data ++ w.data = w.data from rfl]
  rw [if_neg (fun hh => hw.1 ((str_empty_iff w).2 hh))]

theorem pySplit_empty : pySplit "" = [] := rfl

theorem pySplit_append_space (a b : String) :
    pySplit (a ++ " " ++ b) = pySplit a ++ pySplit b := by
  unfold pySplit
  have hd : (a ++ " " ++ b).data = a.data ++ ' ' :: b.data := by
    rw [data_append, data_append, List.append_assoc]
    rfl
  rw [hd]
  exact wordsAux_append_ws a.data "" b.data

theorem joinSpace_cons_cons (a b : String) (t : List String) :
    joinSpace (a :: b :: t) = a ++ " " ++ joinSpace (b :: t) := rfl

theorem pySplit_joinSpace : ∀ ls : List String,
    pySplit (joinSpace ls) = ls.flatMap pySplit
  | [] => by simp [joinSpace, pySplit_empty]
  | [l] => by simp [joinSpace]
  | l :: l' :: ls => by
    rw [joinSpace_cons_cons, pySplit_append_space, pySplit_joinSpace (l' :: ls)]
    simp

theorem joinSpace_glue (a b : String) : ∀ t : List String,
    joinSpace (a :: b :: t) = joinSpace ((a ++ " " ++ b) :: t)
  | [] => rfl
  | c :: t => by
    rw [joinSpace_cons_cons, joinSpace_cons_cons, joinSpace_cons_cons]
    simp only [String.append_assoc]

theorem joinSpace_concat : ∀ (xs : List String) (x : String), xs ≠ [] →
    joinSpace (xs ++ [x]) = joinSpace xs ++ " " ++ x
  | [], _, h => absurd rfl h
  | [_], _, _ => rfl
  | a :: b :: t, x, _ => by
    show joinSpace (a :: b :: (t ++ [x])) = _
    rw [joinSpace_cons_cons]
    have h2 := joinSpace_concat (b :: t) x (by simp)
    rw [List.cons_append] at h2
    rw [h2, joinSpace_cons_cons]
    simp only [String.append_assoc]

/-! # Facts about stringWidth -/

theorem stringWidth_append (m : FontMetrics) (font : String) (size : ℤ) (a b : String) :
    stringWidth m font size (a ++ b) =
      stringWidth m font size a + stringWidth m font size b := by
  unfold stringWidth
  rw [data_append, List.map_append, List.sum_append]

theorem stringWidth_nonneg (m : FontMetrics) (font : String) (size : ℤ)
    (hm : ∀ c, 0 ≤ m font size c) (s : String) : 0 ≤ stringWidth m font size s := by
  refine List.sum_nonneg ?_
  intro x hx
  rcases List.mem_map.1 hx with ⟨c, _, rfl⟩
  exact hm c

/-! # Facts about the greedy wrapper -/

theorem wrapAux_nil (m : FontMetrics) (font : String) (size mw : ℤ) (line : String) :
    wrapAux m font size mw [] line = if line = "" then [] else [line] := rfl

theorem wrapAux_cons (m : FontMetrics) (font : String) (size mw : ℤ)
    (w line : String) (ws : List String) :
    wrapAux m font size mw (w :: ws) line =
      if stringWidth m font size (if line = "" then w else line ++ " " ++ w) ≤ mw then
        wrapAux m font size mw ws (if line = "" then w else line ++ " " ++ w)
      else if line = "" then wrapAux m font size mw ws w
      else line :: wrapAux m font size mw ws w := rfl

theorem wrapAux_cons_empty (m : FontMetrics) (font : String) (size mw : ℤ)
    (w : String) (ws : List String) :
    wrapAux m font size mw (w :: ws) "" = wrapAux m font size mw ws w := by
  rw [wrapAux_cons]
  simp

theorem wrapAux_cons_ne (m : FontMetrics) (font : String) (size mw : ℤ)
    (w line : String) (ws : List String) (h : line ≠ "") :
    wrapAux m font size mw (w :: ws) line =
      if stringWidth m font size (line ++ " " ++ w) ≤ mw then
        wrapAux m font size mw ws (line ++ " " ++ w)
      else line :: wrapAux m font size mw ws w := by
  rw [wrapAux_cons]
  simp only [if_neg h]

theorem wrapAux_fits_or_mem (m : FontMetrics) (font : String) (size mw : ℤ)
    (W : List String) :
    ∀ (ws : List String) (line : String), (∀ w ∈ ws, w ∈ W) →
    (line = "" ∨ stringWidth m font size line ≤ mw ∨ line ∈ W) →
    ∀ l ∈ wrapAux m font size mw ws line,
      stringWidth m font size l ≤ mw ∨ l ∈ W
  | [], line, _, hline, l, hl => by
    rw [wrapAux_nil] at hl
    by_cases h : line = ""
    · simp [h] at hl
    · rw [if_neg h, List.mem_singleton] at hl
      subst hl
      rcases hline with h1 | h1 | h1
      · exact absurd h1 h
      · exact Or.inl h1
      · exact Or.inr h1
  | w :: ws, line, hws, hline, l, hl => by
    have hw : w ∈ W := hws w (List.mem_cons_self w ws)
    have hws' : ∀ v ∈ ws, v ∈ W := fun v hv => hws v (List.mem_cons_of_mem w hv)
    by_cases h : line = ""
    · subst h
      rw [wrapAux_cons_empty] at hl
      exact wrapAux_fits_or_mem m font size mw W ws w hws' (Or.inr (Or.inr hw)) l hl
    · rw [wrapAux_cons_ne m font size mw w line ws h] at hl
      by_cases hfit : stringWidth m font size (line ++ " " ++ w) ≤ mw
      · rw [if_pos hfit] at hl
        exact wrapAux_fits_or_mem m font size mw W ws _ hws'
          (Or.inr (Or.inl hfit)) l hl
      · rw [if_neg hfit] at hl
        rcases List.mem_cons.1 hl with h1 | h1
        · subst h1
          rcases hline with h2 | h2 | h2
          · exact absurd h2 h
          · exact Or.inl h2
          · exact Or.inr h2
        · exact wrapAux_fits_or_mem m font size mw W ws w hws'
            (Or.inr (Or.inr hw)) l h1

theorem wrapAux_flat (m : FontMetrics) (font : String) (size mw : ℤ) :
    ∀ (ws : List String) (line : String), (∀ w ∈ ws, goodWord w) →
    (wrapAux m font size mw ws line).flatMap pySplit = pySplit line ++ ws
  | [], line, _ => by
    rw [wrapAux_nil]
    by_cases h : line = ""
    · rw [if_pos h, h, pySplit_empty]
      simp
    · rw [if_neg h]
      simp
  | w :: ws, line, hws => by
    have hgw : goodWord w := hws w (List.mem_cons_self w ws)
    have hws' : ∀ v ∈ ws, goodWord v := fun v hv => hws v (List.mem_cons_of_mem w hv)
    by_cases h : line = ""
    · subst h
      rw [wrapAux_cons_empty, wrapAux_flat m font size mw ws w hws',
        pySplit_of_goodWord w hgw, pySplit_empty]
      simp
    · rw [wrapAux_cons_ne m font size mw w line ws h]
      by_cases hfit : stringWidth m font size (line ++ " " ++ w) ≤ mw
      · rw [if_pos hfit, wrapAux_flat m font size mw ws (line ++ " " ++ w) hws',
          pySplit_append_space, pySplit_of_goodWord w hgw]
        simp
      · rw [if_neg hfit]
        rw [List.flatMap_cons, wrapAux_flat m font size mw ws w hws',
          pySplit_of_goodWord w hgw]
        simp

theorem wrapAux_canonical (m : FontMetrics) (font : String) (size mw : ℤ) :
    ∀ (ws : List String) (line : String), (∀ w ∈ ws, goodWord w) →
    (line = "" ∨ (pySplit line ≠ [] ∧ joinSpace (pySplit line) = line)) →
    ∀ l ∈ wrapAux m font size mw ws line,
      pySplit l ≠ [] ∧ joinSpace (pySplit l) = l
  | [], line, _, hline, l, hl => by
    rw [wrapAux_nil] at hl
    by_cases h : line = ""
    · simp [h] at hl
    · rw [if_neg h, List.mem_singleton] at hl
      subst hl
      rcases hline with h1 | h1
      · exact absurd h1 h
      · exact h1
  | w :: ws, line, hws, hline, l, hl => by
    have hgw : goodWord w := hws w (List.mem_cons_self w ws)
    have hws' : ∀ v ∈ ws, goodWord v := fun v hv => hws v (List.mem_cons_of_mem w hv)
    have hcw : pySplit w ≠ [] ∧ joinSpace (pySplit w) = w := by
      rw [pySplit_of_goodWord w hgw]
      exact ⟨by simp, rfl⟩
    by_cases h : line = ""
    · subst h
      rw [wrapAux_cons_empty] at hl
      exact wrapAux_canonical m font size mw ws w hws' (Or.inr hcw) l hl
    · rw [wrapAux_cons_ne m font size mw w line ws h] at hl
      rcases hline with h1 | h1
      · exact absurd h1 h
      by_cases hfit : stringWidth m font size (line ++ " " ++ w) ≤ mw
      · rw [if_pos hfit] at hl
        have htest : pySplit (line ++ " " ++ w) ≠ [] ∧
            joinSpace (pySplit (line ++ " " ++ w)) = line ++ " " ++ w := by
          rw [pySplit_append_space, pySplit_of_goodWord w hgw]
          constructor
          · simp
          · rw [joinSpace_concat (pySplit line) w h1.1, h1.2]
        exact wrapAux_canonical m font size mw ws _ hws' (Or.inr htest) l hl
      · rw [if_neg hfit] at hl
        rcases List.mem_cons.1 hl with h2 | h2
        · subst h2
          exact h1
        · exact wrapAux_canonical m font size mw ws w hws' (Or.inr hcw) l h2

theorem wrapAux_single (m : FontMetrics) (font : String) (size mw : ℤ)
    (hm : ∀ c, 0 ≤ m font size c) :
    ∀ (ws : List String) (line : String), line ≠ "" →
    stringWidth m font size (joinSpace (line :: ws)) ≤ mw →
    wrapAux m font size mw ws line = [joinSpace (line :: ws)]
  | [], line, hne, _ => by
    rw [wrapAux_nil, if_neg hne]
    rfl
  | w :: ws, line, hne, hfit => by
    have hjoin : joinSpace (line :: w :: ws) = joinSpace ((line ++ " " ++ w) :: ws) :=
      joinSpace_glue line w ws
    have hfit2 : stringWidth m font size (joinSpace ((line ++ " " ++ w) :: ws)) ≤ mw := by
      rw [← hjoin]
      exact hfit
    have htest : stringWidth m font size (line ++ " " ++ w) ≤ mw := by
      refine le_trans ?_ hfit2
      cases ws with
      | nil => exact le_of_eq rfl
      | cons b t =>
        have hbig : stringWidth m font size (joinSpace ((line ++ " " ++ w) :: b :: t)) =
            stringWidth m font size (line ++ " " ++ w) +
              (stringWidth m font size " " + stringWidth m font size (joinSpace (b :: t))) := by
          rw [joinSpace_cons_cons,
            stringWidth_append m font size (line ++ " " ++ w ++ " ") (joinSpace (b :: t)),
            stringWidth_append m font size (line ++ " " ++ w) " "]
          ring
        rw [hbig]
        have g1 := stringWidth_nonneg m font size hm (joinSpace (b :: t))
        have g2 := stringWidth_nonneg m font size hm " "
        linarith
    rw [wrapAux_cons_ne m font size mw w line ws hne, if_pos htest]
    have hne2 : (line ++ " " ++ w) ≠ "" := by
      intro hh
      have hd := (str_empty_iff _).1 hh
      rw [data_append, data_append] at hd
      simp at hd
    rw [wrapAux_single m font size mw hm ws (line ++ " " ++ w) hne2 hfit2, hjoin]

theorem wrapAux_ne_empty (m : FontMetrics) (font : String) (size mw : ℤ) :
    ∀ (ws : List String) (line : String), ∀ l ∈ wrapAux m font size mw ws line, l ≠ ""
  | [], line, l, hl => by
    rw [wrapAux_nil] at hl
    by_cases h : line = ""
    · simp [h] at hl
    · rw [if_neg h, List.mem_singleton] at hl
      subst hl
      exact h
  | w :: ws, line, l, hl => by
    by_cases h : line = ""
    · subst h
      rw [wrapAux_cons_empty] at hl
      exact wrapAux_ne_empty m font size mw ws w l hl
    · rw [wrapAux_cons_ne m font size mw w line ws h] at hl
      by_cases hfit : stringWidth m font size (line ++ " " ++ w) ≤ mw
      · rw [if_pos hfit] at hl
        exact wrapAux_ne_empty m font size mw ws _ l hl
      · rw [if_neg hfit] at hl
        rcases List.mem_cons.1 hl with h1 | h1
        · subst h1
          exact h
        · exact wrapAux_ne_empty m font size mw ws w l h1

/-! # Claim C3: width bound of wrapped lines -/

/-- Claim C3: for every text and positive max width, every line produced
by `wrap_lines` has measured width (`stringWidth` in the given font and
size) at most the max width, except that a line may be a single word of
the input whose own measured width exceeds the max width, placed alone
on its own line unmodified. -/
theorem wrap_lines_width_bound (m : FontMetrics) (font : String) (size : ℤ)
    (text : String) (max_width : ℤ) (hmw : 0 < max_width) :
    ∀ l ∈ wrap_lines m text max_width font size,
      stringWidth m font size l ≤ max_width ∨
        (l ∈ pySplit text ∧ max_width < stringWidth m font size l) := by
  intro l hl
  have h := wrapAux_fits_or_mem m font size max_width (pySplit text) (pySplit text) ""
    (fun w hw => hw) (Or.inl rfl) l hl
  rcases le_or_lt (stringWidth m font size l) max_width with h1 | h1
  · exact Or.inl h1
  · rcases h with h2 | h2
    · exact Or.inl h2
    · exact Or.inr ⟨h2, h1⟩

/-- Witness for `wrap_lines_width_bound`: with unit character widths,
wrapping "ab cd ef" at max width 5 produces the line "ab cd". -/
theorem wrap_lines_width_bound_witness :
    (0 : ℤ) < 5 ∧
      (stringWidth mUnit "Helvetica" 1 "ab cd" ≤ 5 ∨
        ("ab cd" ∈ pySplit "ab cd ef" ∧ 5 < stringWidth mUnit "Helvetica" 1 "ab cd")) :=
  ⟨by decide,
   wrap_lines_width_bound mUnit "Helvetica" 1 "ab cd ef" 5 (by decide) "ab cd" (by decide)⟩

/-! # Claim C4: wrapping loses and reorders no words -/

/-- Claim C4: concatenating the lines returned by `wrap_lines` with
single spaces and splitting on whitespace yields exactly the original
text's whitespace-split word sequence, in order. -/
theorem wrap_lines_roundtrip (m : FontMetrics) (font : String) (size : ℤ)
    (text : String) (max_width : ℤ) :
    pySplit (joinSpace (wrap_lines m text max_width font size)) = pySplit text := by
  rw [pySplit_joinSpace]
  unfold wrap_lines
  rw [wrapAux_flat m font size max_width (pySplit text) "" (pySplit_good text),
    pySplit_empty]
  rfl

/-! # Claim C5: wrapping is idempotent on fitting output lines -/

/-- Claim C5: if `L` is a line output by `wrap_lines` whose measured
width is at most the max width, then wrapping `L` again at the same max
width returns exactly `[L]` (the width hypotheses on the metrics model
that real glyph widths are nonnegative). -/
theorem wrap_lines_idempotent (m : FontMetrics) (font : String) (size : ℤ)
    (text : String) (max_width : ℤ) (hm : ∀ c, 0 ≤ m font size c)
    (L : String) (hL : L ∈ wrap_lines m text max_width font size)
    (hfit : stringWidth m font size L ≤ max_width) :
    wrap_lines m L max_width font size = [L] := by
  have hcan := wrapAux_canonical m font size max_width (pySplit text) ""
    (pySplit_good text) (Or.inl rfl) L hL
  obtain ⟨hne, hjoin⟩ := hcan
  unfold wrap_lines
  cases hsplit : pySplit L with
  | nil => exact absurd hsplit hne
  | cons w ws =>
    have hgood : ∀ v ∈ pySplit L, goodWord v := pySplit_good L
    rw [hsplit] at hgood hjoin
    have hgw : goodWord w := hgood w (List.mem_cons_self w ws)
    rw [wrapAux_cons_empty,
      wrapAux_single m font size max_width hm ws w hgw.1 (by rw [hjoin]; exact hfit),
      hjoin]

/-- Witness for `wrap_lines_idempotent`: with unit character widths the
line "ab cd" (of width 5, produced by wrapping "ab cd ef" at width 5)
re-wraps to itself. -/
theorem wrap_lines_idempotent_witness :
    wrap_lines mUnit "ab cd" 5 "Helvetica" 1 = ["ab cd"] :=
  wrap_lines_idempotent mUnit "Helvetica" 1 "ab cd ef" 5 (fun _ => zero_le_one)
    "ab cd" (by decide) (by decide)

/-! # Claim C10: wrapping never produces empty lines -/

/-- Claim C10 (implicit): every string returned by `wrap_lines` is
nonempty; the empty lines of the education cards come only from the
explicit equal-length padding step, which appends exactly
`max(m,n) - len` copies of `""` to each block and changes nothing else. -/
theorem wrap_lines_no_empty :
    (∀ (m : FontMetrics) (font : String) (size : ℤ) (text : String) (max_width : ℤ),
      ∀ l ∈ wrap_lines m text max_width font size, l ≠ "") ∧
    (∀ ls rs : List String,
      (padCardLines ls rs).1 = ls ++ List.replicate (max ls.length rs.length - ls.length) "" ∧
      (padCardLines ls rs).2 = rs ++ List.replicate (max ls.length rs.length - rs.length) "") := by
  constructor
  · intro m font size text max_width l hl
    exact wrapAux_ne_empty m font size max_width (pySplit text) "" l hl
  · intro ls rs
    constructor
    · show (if ls.length < max ls.length rs.length then
          ls ++ List.replicate (max ls.length rs.length - ls.length) "" else ls) = _
      split_ifs with h
      · rfl
      · rw [Nat.sub_eq_zero_of_le (Nat.le_of_not_lt h)]
        simp
    · show (if rs.length < max ls.length rs.length then
          rs ++ List.replicate (max ls.length rs.length - rs.length) "" else rs) = _
      split_ifs with h
      · rfl
      · rw [Nat.sub_eq_zero_of_le (Nat.le_of_not_lt h)]
        simp

/-- Witness for `wrap_lines_no_empty` at concrete inputs. -/
theorem wrap_lines_no_empty_witness :
    "Hello" ≠ "" ∧ (padCardLines ["x"] [] ).1 = ["x"] ++ List.replicate 0 "" :=
  ⟨wrap_lines_no_empty.1 mUnit "Helvetica" 1 "Hello" 99 "Hello" (by decide),
   (wrap_lines_no_empty.2 ["x"] []).1⟩

/-! # Claim C6: education card pairing -/

/-- Claim C6: for any two card line blocks, the padded blocks both have
length `max(m, n)`, the box heights computed from the two padded blocks
(same padding, leading and line gap) are identical, and consequently the
row height (their max) equals either card's height. -/
theorem edu_card_pairing (ls rs : List String) (padding leading line_gap : ℤ) :
    (padCardLines ls rs).1.length = max ls.length rs.length ∧
    (padCardLines ls rs).2.length = max ls.length rs.length ∧
    box_height_calc padding leading line_gap (padCardLines ls rs).1.length =
      box_height_calc padding leading line_gap (padCardLines ls rs).2.length ∧
    max (box_height_calc padding leading line_gap (padCardLines ls rs).1.length)
        (box_height_calc padding leading line_gap (padCardLines ls rs).2.length) =
      box_height_calc padding leading line_gap (padCardLines ls rs).1.length := by
  have h1 : (padCardLines ls rs).1.length = max ls.length rs.length := by
    show (if ls.length < max ls.length rs.length then
        ls ++ List.replicate (max ls.length rs.length - ls.length) "" else ls).length = _
    split_ifs with h
    · rw [List.length_append, List.length_replicate]
      exact Nat.add_sub_cancel' (le_max_left ls.length rs.length)
    · exact (le_antisymm (Nat.le_of_not_lt h) (le_max_left _ _)).symm
  have h2 : (padCardLines ls rs).2.length = max ls.length rs.length := by
    show (if rs.length < max ls.length rs.length then
        rs ++ List.replicate (max ls.length rs.length - rs.length) "" else rs).length = _
    split_ifs with h
    · rw [List.length_append, List.length_replicate]
      exact Nat.add_sub_cancel' (le_max_right ls.length rs.length)
    · exact (le_antisymm (Nat.le_of_not_lt h) (le_max_right _ _)).symm
  refine ⟨h1, h2, ?_, ?_⟩
  · rw [h1, h2]
  · rw [h1, h2, max_self]

/-! # Claim C7: the box height formula of draw_boxed_block -/

/-- Counterexample to claim C7 as stated: for the empty list of lines
and intra-line gap 5, `draw_boxed_block` computes height `2×padding`
(the source clamps `len - 1` at zero), not the spec formula's
`2×padding + 0×leading + (0−1)×gap`. -/
theorem boxed_block_height_cex :
    (draw_boxed_block ⟨1, 0, [], []⟩ 0 0 100 ([] : List String) 1 "Helvetica" 9 1 5).2 ≠
      boxHeightSpec 1 1 5 ([] : List String).length := by decide

/-- Amended claim C7: `draw_boxed_block` computes the box height by the
spec's formula `2×padding + lines×leading + (lines−1)×gap` whenever
there is at least one line; for zero lines the height is `2×padding`
(the `(lines−1)×gap` term is clamped at zero, not negative). -/
theorem boxed_block_height_amended (s : RS) (x ypos width : ℤ) (lines : List String)
    (padding : ℤ) (font : String) (size leading line_gap : ℤ) :
    (draw_boxed_block s x ypos width lines padding font size leading line_gap).2 =
      if lines.length = 0 then 2 * padding
      else boxHeightSpec padding leading line_gap lines.length := by
  show box_height_calc padding leading line_gap lines.length = _
  unfold box_height_calc boxHeightSpec
  cases hn : lines.length with
  | zero =>
    rw [if_pos rfl]
    push_cast
    rw [max_eq_left (by norm_num : (-1 : ℤ) ≤ 0)]
    ring
  | succ k =>
    rw [if_neg (Nat.succ_ne_zero k)]
    push_cast
    rw [max_eq_right (by omega : (0 : ℤ) ≤ (k : ℤ) + 1 - 1)]
    ring

/-! # The cursor-history invariant machinery (claim C2) -/

theorem stepsOk_concat (R : α → α → Prop) :
    ∀ (l : List α) (a b : α), StepsOk R l → l.getLast? = some a → R a b →
      StepsOk R (l ++ [b])
  | [], a, b, _, hlast, _ => by simp at hlast
  | [x], a, b, _, hlast, hr => by
    rw [List.getLast?_singleton] at hlast
    have hax : x = a := by injection hlast
    subst hax
    exact ⟨hr, trivial⟩
  | x :: y :: t, a, b, hok, hlast, hr => by
    rw [List.getLast?_cons_cons] at hlast
    exact ⟨hok.1, stepsOk_concat R (y :: t) a b hok.2 hlast hr⟩

theorem good_emitText (s : RS) (x ypos : ℤ) (t : String) (h : Good s) :
    Good (emitText s x ypos t) := h

theorem good_emitLine (s : RS) (x1 y1 x2 y2 : ℤ) (h : Good s) :
    Good (emitLine s x1 y1 x2 y2) := h

theorem good_emitRect (s : RS) (x ypos w hh : ℤ) (h : Good s) :
    Good (emitRect s x ypos w hh) := h

theorem good_of_fields (s' s : RS) (hc : s'.cur = s.cur) (hp : s'.page = s.page)
    (hy : s'.y = s.y) (h : Good s) : Good s' := by
  constructor
  · rw [hc, hp, hy]
    exact h.1
  · rw [hc]
    exact h.2

theorem good_setY_le (s : RS) (q : ℤ) (h : Good s) (hq : q ≤ s.y) :
    Good (setY s q) := by
  constructor
  · exact List.getLast?_concat s.cur
  · exact stepsOk_concat StepOkRel s.cur (s.page, s.y) (s.page, q) h.2 h.1
      (Or.inl ⟨rfl, Or.inl hq⟩)

theorem good_setY_plus15 (s : RS) (h : Good s) :
    Good (setY s (s.y + 15 * PT)) := by
  constructor
  · exact List.getLast?_concat s.cur
  · exact stepsOk_concat StepOkRel s.cur (s.page, s.y) (s.page, s.y + 15 * PT) h.2 h.1
      (Or.inl ⟨rfl, Or.inr rfl⟩)

theorem good_break (s : RS) (h : Good s) : Good (setY (newPage s) pageTop) := by
  constructor
  · exact List.getLast?_concat s.cur
  · exact stepsOk_concat StepOkRel s.cur (s.page, s.y) (s.page + 1, pageTop) h.2 h.1
      (Or.inr ⟨rfl, rfl⟩)

theorem good_new_page_if_needed (s : RS) (h : Good s) :
    Good (new_page_if_needed s) := by
  unfold new_page_if_needed
  split_ifs
  · exact good_break s h
  · exact good_setY_le s s.y h le_rfl

theorem good_foldl {β : Type} (f : RS → β → RS)
    (hf : ∀ st b, Good st → Good (f st b)) :
    ∀ (l : List β) (s : RS), Good s → Good (l.foldl f s)
  | [], _, h => h
  | b :: t, s, h => good_foldl f hf t (f s b) (hf s b h)

theorem good_draw_wrapped_text (m : FontMetrics) (s : RS) (text : String)
    (x max_width : ℤ) (font : String) (size leading min_gap : ℤ)
    (hl : 0 ≤ leading) (hg : 0 ≤ min_gap) (h : Good s) :
    Good (draw_wrapped_text m s text x max_width font size leading min_gap) := by
  unfold draw_wrapped_text
  have h1 : Good ((wrap_lines m text max_width font size).foldl
      (fun st ln => setY (emitText st x st.y ln) (st.y - leading)) s) := by
    refine good_foldl _ ?_ _ s h
    intro st b hst
    refine good_setY_le _ _ (good_emitText st x st.y b hst) ?_
    show st.y - leading ≤ st.y
    exact sub_le_self st.y hl
  exact good_setY_le _ _ h1 (sub_le_self _ hg)

theorem good_draw_section_title (s : RS) (title : String) (x ypos : ℤ)
    (h : Good s) (hy : ypos ≤ s.y) :
    Good (draw_section_title s title x ypos) := by
  unfold draw_section_title
  refine good_setY_le _ _ (good_emitText s x ypos (upperAscii title) h) ?_
  show ypos - (14 * PT + MIN_LINE_GAP) ≤ s.y
  have hpos : (0 : ℤ) ≤ 14 * PT + MIN_LINE_GAP := by decide
  linarith

theorem good_draw_divider (s : RS) (x1 x2 ypos : ℤ) (h : Good s) (hy : ypos ≤ s.y) :
    Good (draw_divider s x1 x2 ypos) := by
  unfold draw_divider
  refine good_setY_le _ _ (good_emitLine s x1 ypos x2 ypos h) ?_
  show ypos - 8 * PT ≤ s.y
  have hpos : (0 : ℤ) ≤ 8 * PT := by decide
  linarith

theorem good_draw_bullets (m : FontMetrics) (s : RS) (bullets : List String)
    (x max_width : ℤ) (font : String) (size leading bullet_indent : ℤ)
    (hl : 0 ≤ leading) (h : Good s) :
    Good (draw_bullets m s bullets x max_width font size leading bullet_indent) := by
  unfold draw_bullets
  refine good_foldl _ ?_ bullets s h
  intro st b hst
  have h2 := good_draw_wrapped_text m (emitText st x st.y "•") b (x + bullet_indent)
    (max_width - bullet_indent) font size leading MIN_LINE_GAP hl (by decide)
    (good_emitText st x st.y "•" hst)
  exact good_setY_le _ _ h2 (sub_le_self _ (by decide))

theorem boxed_fold_fields (x padding leading line_gap : ℤ) :
    ∀ (lines : List String) (st : RS) (t : ℤ),
      ((lines.foldl (fun (p : RS × ℤ) ln =>
          (emitText p.1 (x + padding) p.2 ln, p.2 - (leading + line_gap))) (st, t)).1).cur
          = st.cur ∧
      ((lines.foldl (fun (p : RS × ℤ) ln =>
          (emitText p.1 (x + padding) p.2 ln, p.2 - (leading + line_gap))) (st, t)).1).page
          = st.page ∧
      ((lines.foldl (fun (p : RS × ℤ) ln =>
          (emitText p.1 (x + padding) p.2 ln, p.2 - (leading + line_gap))) (st, t)).1).y
          = st.y
  | [], _, _ => ⟨rfl, rfl, rfl⟩
  | ln :: ls, st, t =>
    boxed_fold_fields x padding leading line_gap ls
      (emitText st (x + padding) t ln) (t - (leading + line_gap))

theorem good_draw_boxed_block (s : RS) (x ypos width : ℤ) (lines : List String)
    (padding : ℤ) (font : String) (size leading line_gap : ℤ) (h : Good s) :
    Good (draw_boxed_block s x ypos width lines padding font size leading line_gap).1 ∧
    (draw_boxed_block s x ypos width lines padding font size leading line_gap).1.y = s.y ∧
    (draw_boxed_block s x ypos width lines padding font size leading line_gap).1.page
      = s.page := by
  have hf := boxed_fold_fields x padding leading line_gap lines
    (emitRect s x (ypos - box_height_calc padding leading line_gap lines.length) width
      (box_height_calc padding leading line_gap lines.length)) (ypos - padding - size)
  exact ⟨good_of_fields _ s hf.1 hf.2.1 hf.2.2 h, hf.2.2, hf.2.1⟩

theorem box_height_card_nonneg (n : ℕ) :
    0 ≤ box_height_calc card_padding edu_leading 0 n := by
  unfold box_height_calc
  rw [mul_zero]
  have h0 : (0 : ℤ) ≤ (n : ℤ) := Int.natCast_nonneg n
  have h1 : (0 : ℤ) ≤ (n : ℤ) * edu_leading := mul_nonneg h0 (by decide)
  have h2 : (0 : ℤ) ≤ card_padding := by decide
  linarith

theorem good_eduRowSingle (m : FontMetrics) (s : RS) (it : EduItem) (h : Good s) :
    Good (eduRowSingle m s it) := by
  unfold eduRowSingle
  set s1 := if s.y < bottomMargin + 4 * cm then setY (newPage s) pageTop else s with hs1
  have h1 : Good s1 := by
    rw [hs1]
    split_ifs
    · exact good_break s h
    · exact h
  have hb := good_draw_boxed_block s1 leftMargin s1.y col_w (eduCardLines m it)
    card_padding "Helvetica" edu_size edu_leading 0 h1
  refine good_setY_le _ _ hb.1 ?_
  have hh : (0 : ℤ) ≤ (draw_boxed_block s1 leftMargin s1.y col_w (eduCardLines m it)
      card_padding "Helvetica" edu_size edu_leading 0).2 := by
    show (0 : ℤ) ≤ box_height_calc card_padding edu_leading 0 (eduCardLines m it).length
    exact box_height_card_nonneg _
  have h10 : (0 : ℤ) ≤ 10 * PT := by decide
  linarith

theorem good_eduRowPair (m : FontMetrics) (s : RS) (itl itr : EduItem) (h : Good s) :
    Good (eduRowPair m s itl itr) := by
  unfold eduRowPair
  set s1 := if s.y < bottomMargin + 4 * cm then setY (newPage s) pageTop else s with hs1
  have h1 : Good s1 := by
    rw [hs1]
    split_ifs
    · exact good_break s h
    · exact h
  set pads := padCardLines (eduCardLines m itl) (eduCardLines m itr) with hpads
  have hb1 := good_draw_boxed_block s1 leftMargin s1.y col_w pads.1
    card_padding "Helvetica" edu_size edu_leading 0 h1
  set rl := draw_boxed_block s1 leftMargin s1.y col_w pads.1
    card_padding "Helvetica" edu_size edu_leading 0 with hrl
  have hb2 := good_draw_boxed_block rl.1 edu_x2 s1.y col_w pads.2
    card_padding "Helvetica" edu_size edu_leading 0 hb1.1
  set rr := draw_boxed_block rl.1 edu_x2 s1.y col_w pads.2
    card_padding "Helvetica" edu_size edu_leading 0 with hrr
  refine good_setY_le _ _ hb2.1 ?_
  have hh1 : (0 : ℤ) ≤ rl.2 := by
    rw [hrl]
    show (0 : ℤ) ≤ box_height_calc card_padding edu_leading 0 pads.1.length
    exact box_height_card_nonneg _
  have hh2 : (0 : ℤ) ≤ rr.2 := by
    rw [hrr]
    show (0 : ℤ) ≤ box_height_calc card_padding edu_leading 0 pads.2.length
    exact box_height_card_nonneg _
  have hmax : (0 : ℤ) ≤ max rl.2 rr.2 := le_trans hh1 (le_max_left _ _)
  have h10 : (0 : ℤ) ≤ 10 * PT := by decide
  linarith

theorem good_eduLoop (m : FontMetrics) : ∀ (items : List EduItem) (s : RS), Good s →
    Good (eduLoop m s items)
  | [], _, h => h
  | [it], s, h => good_eduRowSingle m s it h
  | _ :: _ :: rest, s, h => good_eduLoop m rest _ (good_eduRowPair m s _ _ h)

theorem good_headerPart (d : ResumeData) (s : RS) (h : Good s) :
    Good (headerPart d s) := by
  unfold headerPart
  refine good_setY_le _ _ ?_ (sub_le_self _ (by decide))
  refine good_emitText _ _ _ _ ?_
  refine good_setY_le _ _ ?_ (sub_le_self _ (by decide))
  exact good_emitText _ _ _ _ h

theorem good_objectivePart (m : FontMetrics) (d : ResumeData) (s : RS) (h : Good s) :
    Good (objectivePart m d s) := by
  unfold objectivePart
  refine good_setY_le _ _ ?_ (sub_le_self _ (by decide))
  refine good_draw_wrapped_text _ _ _ _ _ _ _ _ _ (by decide) (by decide) ?_
  refine good_draw_section_title _ _ _ _ ?_ le_rfl
  refine good_new_page_if_needed _ ?_
  refine good_setY_le _ _ ?_ (sub_le_self _ (by decide))
  exact good_draw_divider _ _ _ _ h le_rfl

theorem good_skillRow (m : FontMetrics) (s : RS) (item : SkillItem) (h : Good s) :
    Good (skillRow m s item) := by
  unfold skillRow
  refine good_setY_le _ _ ?_ (sub_le_self _ (by decide))
  refine good_draw_wrapped_text _ _ _ _ _ _ _ _ _ (by decide) (by decide) ?_
  refine good_emitText _ _ _ _ ?_
  exact good_new_page_if_needed _ h

theorem good_skillsPart (m : FontMetrics) (d : ResumeData) (s : RS) (h : Good s) :
    Good (skillsPart m d s) := by
  unfold skillsPart
  refine good_setY_le _ _ ?_ (sub_le_self _ (by decide))
  refine good_foldl _ (fun st b hst => good_skillRow m st b hst) _ _ ?_
  refine good_draw_section_title _ _ _ _ ?_ le_rfl
  exact good_new_page_if_needed _ h

theorem good_exp_block (m : FontMetrics) (s : RS) (company role_line : String)
    (bullets : List String) (h : Good s) :
    Good (exp_block m s company role_line bullets) := by
  unfold exp_block
  refine good_setY_le _ _ ?_ (sub_le_self _ (by decide))
  refine good_draw_bullets _ _ _ _ _ _ _ _ _ (by decide) ?_
  refine good_setY_le _ _ ?_ (sub_le_self _ (by decide))
  refine good_draw_wrapped_text _ _ _ _ _ _ _ _ _ (by decide) (by decide) ?_
  refine good_setY_le _ _ ?_ (sub_le_self _ (by decide))
  refine good_emitText _ _ _ _ ?_
  exact good_new_page_if_needed _ h

theorem good_expPart (m : FontMetrics) (d : ResumeData) (s : RS) (h : Good s) :
    Good (expPart m d s) := by
  unfold expPart
  refine good_foldl _ (fun st e hst => good_exp_block m st _ _ _ hst) _ _ ?_
  refine good_draw_section_title _ _ _ _ ?_ le_rfl
  exact good_new_page_if_needed _ h

theorem good_eduPart (m : FontMetrics) (d : ResumeData) (s : RS) (h : Good s) :
    Good (eduPart m d s) := by
  unfold eduPart
  refine good_eduLoop m _ _ ?_
  refine good_setY_plus15 _ ?_
  exact good_draw_section_title _ _ _ _ h le_rfl

theorem good_certsPart (m : FontMetrics) (d : ResumeData) (s : RS) (h : Good s) :
    Good (certsPart m d s) := by
  unfold certsPart
  split_ifs
  · exact h
  · refine good_setY_le _ _ ?_ (sub_le_self _ (by decide))
    refine good_draw_divider _ _ _ _ ?_ le_rfl
    refine good_draw_bullets _ _ _ _ _ _ _ _ _ (by decide) ?_
    refine good_draw_section_title _ _ _ _ ?_ le_rfl
    exact good_new_page_if_needed _ h

theorem good_refsPart (m : FontMetrics) (d : ResumeData) (s : RS) (h : Good s) :
    Good (refsPart m d s) := by
  unfold refsPart
  split_ifs
  · exact h
  · refine good_foldl _ ?_ _ _ ?_
    · intro st b hst
      refine good_setY_le _ _ ?_ (sub_le_self _ (by decide))
      refine good_draw_wrapped_text _ _ _ _ _ _ _ _ _ (by decide) (by decide) ?_
      exact good_new_page_if_needed _ hst
    · refine good_draw_section_title _ _ _ _ ?_ (sub_le_self _ (by decide))
      exact good_new_page_if_needed _ h

theorem good_create_resume_pdf (m : FontMetrics) (d : ResumeData) :
    Good (create_resume_pdf m d) := by
  unfold create_resume_pdf
  refine good_refsPart m d _ ?_
  refine good_certsPart m d _ ?_
  refine good_eduPart m d _ ?_
  refine good_expPart m d _ ?_
  refine good_skillsPart m d _ ?_
  refine good_objectivePart m d _ ?_
  refine good_headerPart d _ ?_
  exact good_emitRect _ _ _ _ _ ⟨rfl, trivial⟩

/-! # Claim C2: cursor monotonicity -/

/-- Counterexample to claim C2 as stated: already on the minimal
document the cursor history violates "non-increasing within a page,
increases only at a page-break reset": src/app.py line 239 (`y += 15`
right after the EDUCATION section title, which only subtracted
`14 + MIN_LINE_GAP = 14.8`) moves the cursor up by 15 pt with no page
break. -/
theorem cursor_claim_cex :
    ¬ StepsOk ClaimStepRel (create_resume_pdf mHelv minimalDoc).cur := by decide

/-- Amended claim C2: over one render pass, every adjacent pair of
cursor assignments either stays on the same page and does not increase,
or is the single fixed `y += 15` adjustment (src/app.py line 239)
following the EDUCATION section title, or is a page break resetting the
cursor to the top margin `PAGE_H - top` on the next page. -/
theorem cursor_trace_amended (m : FontMetrics) (d : ResumeData) :
    StepsOk StepOkRel (create_resume_pdf m d).cur :=
  (good_create_resume_pdf m d).2

/-! # Claim C1: rendering the minimal document -/

/-- Counterexample to claim C1 as stated: the minimal document does not
render "no skills, experience, or education sections" — the three
section titles are drawn unconditionally (src/app.py lines 188, 212,
238), so the skills section heading appears among the drawn text. -/
theorem render_minimal_cex :
    "SKILLS SNAPSHOT" ∈ opTexts (create_resume_pdf mHelv minimalDoc).ops := by decide

/-- Amended claim C1: for the minimal document (with the Helvetica
metrics model) `create_resume_pdf` produces exactly one page whose text
operations are, in order: the header line "A", the contact line
"b@x.com", the CAREER OBJECTIVE title, the one-line wrapped
"Hello world" paragraph, and the three always-drawn section titles
SKILLS SNAPSHOT, EXPERIENCE, EDUCATION with no content under them; the
only rectangle is the page border and the only plain line is the header
divider (no skills rows, experience entries, education cards,
certifications or references are drawn). -/
theorem render_minimal_amended :
    (create_resume_pdf mHelv minimalDoc).page = 1 ∧
    opTexts (create_resume_pdf mHelv minimalDoc).ops =
      ["A", "b@x.com", "CAREER OBJECTIVE", "Hello world",
       "SKILLS SNAPSHOT", "EXPERIENCE", "EDUCATION"] ∧
    rectCount (create_resume_pdf mHelv minimalDoc).ops = 1 ∧
    lineCount (create_resume_pdf mHelv minimalDoc).ops = 1 := by decide

/-! # Claims C8 and C9: the editor's Generate and download actions -/

/-- Claim C8 (behavior the spec describes for the Generate handler;
the handler as written in src/app.py lines 368-383 never runs because
of the unclosed parenthesis on line 377): when the submitted text does
not parse as JSON, the stored input file is unchanged, an error message
is surfaced, and no render is attempted. -/
theorem generate_invalid_json (parse : String → Option ResumeData)
    (pretty : ResumeData → String) (render : ResumeData → String)
    (fs : AppFiles) (edited : String) (h : parse edited = none) :
    (generateClick parse pretty render fs edited).1 = fs ∧
    (generateClick parse pretty render fs edited).2.1 = true ∧
    (generateClick parse pretty render fs edited).2.2 = false := by
  unfold generateClick
  rw [h]
  exact ⟨rfl, rfl, rfl⟩

/-- Witness for `generate_invalid_json` with a concrete failing parser. -/
theorem generate_invalid_json_witness :
    (generateClick (fun _ => none) (fun _ => "") (fun _ => "")
      ⟨"stored", none, none⟩ "bad").1 = ⟨"stored", none, none⟩ :=
  (generate_invalid_json (fun _ => none) (fun _ => "") (fun _ => "")
    ⟨"stored", none, none⟩ "bad" rfl).1

/-- Claim C9 (behavior the spec describes; the handler as written never
runs because of the syntax error on src/app.py line 377): on valid JSON
the parsed document is persisted pretty-printed and the render pipeline
is invoked — but the handler writes `RachitS_Resume.pdf` (line 379)
while the download action serves the distinct file
`Rachit_Sharma_Resume_Generated.pdf` (lines 354, 385-391) with MIME
type `application/pdf`, so the PDF produced by this click never becomes
the file the download button serves. -/
theorem generate_valid_json (parse : String → Option ResumeData)
    (pretty : ResumeData → String) (render : ResumeData → String)
    (fs : AppFiles) (edited : String) (d : ResumeData)
    (h : parse edited = some d) :
    (generateClick parse pretty render fs edited).1.resume_json = pretty d ∧
    (generateClick parse pretty render fs edited).2.2 = true ∧
    (generateClick parse pretty render fs edited).1.rachits_pdf = some (render d) ∧
    downloadButton (generateClick parse pretty render fs edited).1 =
      downloadButton fs := by
  unfold generateClick
  rw [h]
  exact ⟨rfl, rfl, rfl, rfl⟩

/-- Witness for `generate_valid_json` with a concrete succeeding parser. -/
theorem generate_valid_json_witness :
    (generateClick (fun _ => some minimalDoc) (fun _ => "pretty") (fun _ => "pdf")
      ⟨"stored", none, none⟩ "ok").1.resume_json = "pretty" :=
  (generate_valid_json (fun _ => some minimalDoc) (fun _ => "pretty") (fun _ => "pdf")
    ⟨"stored", none, none⟩ "ok" minimalDoc rfl).1
